import Mathlib

/-!
Shallow embedding of the argument-parsing core of
`src/command_modules/azure-cli-monitor/azure/cli/command_modules/monitor/actions.py`.

Strings are modelled as `List Char` (`Str`).  Python string operations used by
the source (`str.split`, `' '.join`, `str.lower`, `str.upper`, slicing,
negative indexing, `int(...)`) are modelled by the helper functions below.
`int(...)` is modelled on canonical integer literals (optional sign followed
by ASCII digits); the regex class `\d` is modelled as the ASCII digits.
-/

abbrev Str := List Char

deriving instance DecidableEq for Except

/-- The ten ASCII digit characters; model of the regex class `\d`. -/
def isDig (c : Char) : Bool :=
  c = '0' ∨ c = '1' ∨ c = '2' ∨ c = '3' ∨ c = '4' ∨
  c = '5' ∨ c = '6' ∨ c = '7' ∨ c = '8' ∨ c = '9'

/-- Model of Python `str.lower` (ASCII). -/
def lowerStr (s : Str) : Str := s.map Char.toLower

/-- Model of Python `str.upper` (ASCII). -/
def upperStr (s : Str) : Str := s.map Char.toUpper

/-- Does the character occur in the string? -/
def hasChar (x : Char) : Str → Bool
  | [] => false
  | c :: cs => if c = x then true else hasChar x cs

/-- Model of Python `value.split(sep)` for a one-character separator:
splits at every occurrence, keeping empty pieces; `pySplit sep [] = [[]]`. -/
def pySplit (sep : Char) : Str → List Str
  | [] => [[]]
  | c :: cs =>
    if c = sep then [] :: pySplit sep cs
    else
      match pySplit sep cs with
      | [] => [[c]]
      | p :: ps => (c :: p) :: ps

/-- Model of Python `' '.join(values)`. -/
def joinSpaces : List Str → Str
  | [] => []
  | [s] => s
  | s :: rest => s ++ ' ' :: joinSpaces rest

/-- Value of a digit string, most significant first. -/
def digitsToNat (s : Str) : Nat :=
  s.foldl (fun n c => n * 10 + (c.toNat - 48)) 0

/-- Model of Python `int(s)` on canonical integer literals:
an optional sign followed by one or more ASCII digits. -/
def parsePyInt (s : Str) : Option Int :=
  match s with
  | '+' :: ds => if ds ≠ [] ∧ ds.all isDig then some (digitsToNat ds : Int) else none
  | '-' :: ds => if ds ≠ [] ∧ ds.all isDig then some (-(digitsToNat ds : Int)) else none
  | ds => if ds ≠ [] ∧ ds.all isDig then some (digitsToNat ds : Int) else none

/-- The decimal digit character for `d < 10`. -/
def digChar (d : Nat) : Char :=
  match d with
  | 0 => '0' | 1 => '1' | 2 => '2' | 3 => '3' | 4 => '4'
  | 5 => '5' | 6 => '6' | 7 => '7' | 8 => '8' | _ => '9'

/-- Fuel-driven decimal rendering helper. -/
def natDigitsAux : Nat → Nat → Str
  | 0, _ => []
  | fuel + 1, n =>
    if n < 10 then [digChar n]
    else natDigitsAux fuel (n / 10) ++ [digChar (n % 10)]

/-- Model of Python `str(n)` for a natural number. -/
def natDigits (n : Nat) : Str := natDigitsAux (n + 1) n

/-- Model of Python `str(i)` for an integer. -/
def intToStr (i : Int) : Str :=
  if i < 0 then '-' :: natDigits (-i).toNat else natDigits i.toNat

/-- Association-list lookup on string keys (model of Python `map[key]`,
with `none` standing for `KeyError`). -/
def lookupStr {α : Type} : List (Str × α) → Str → Option α
  | [], _ => none
  | (k0, v) :: rest, k => if k0 = k then some v else lookupStr rest k

/-- The single-token re-split workaround shared by the condition and scale
actions: `if len(values) == 1: values = values[0].split(' ')`. -/
def resplit (values : List Str) : List Str :=
  match values with
  | [v] => pySplit ' ' v
  | _ => values

/-- Model of Python negative indexing `values[-k]`: `none` stands for
`IndexError`. -/
def pyNegGet {α : Type} (vs : List α) (k : Nat) : Option α :=
  if 0 < k ∧ k ≤ vs.length then vs.get? (vs.length - k) else none

/-! ## `period_type` (the duration parser)

The source matches `value.lower()` against
`(p)?(\d+y)?(\d+m)?(\d+d)?(t)?(\d+h)?(\d+m)?(\d+s)?` with `re.match`.
Every group is optional, so the regex engine scans left to right, each group
greedily taking `digits+letter` (or the single marker letter) when the input
at the current position has that exact shape, and the whole match ends at the
first position where no further group applies.  `scanPeriod` implements that
scan, keeping the original (un-lowered) characters of each group, exactly as
`match.regs` spans index into the original `value`. -/

/-- Split the longest ASCII-digit run off the front. -/
def takeDigits : Str → Str × Str
  | [] => ([], [])
  | c :: cs =>
    if isDig c then
      let (d, r) := takeDigits cs
      (c :: d, r)
    else ([], c :: cs)

/-- One optional regex group `(\d+x)?` matched case-insensitively at the
front of `s`: returns the matched text (empty when the group is absent)
and the rest. -/
def numGroup (x : Char) (s : Str) : Str × Str :=
  match takeDigits s with
  | ([], _) => ([], s)
  | (_ :: _, []) => ([], s)
  | (d :: ds, c :: r2) => if c.toLower = x then ((d :: ds) ++ [c], r2) else ([], s)

/-- One optional one-letter marker group `(x)?` matched case-insensitively. -/
def charGroup (x : Char) : Str → Str × Str
  | [] => ([], [])
  | c :: cs => if c.toLower = x then ([c], cs) else ([], c :: cs)

/-- The eight group texts of the duration regex plus the unmatched suffix.
Group numbering follows the source: 1 `(p)`, 2 `(\d+y)`, 3 `(\d+m)`,
4 `(\d+d)`, 5 `(t)`, 6 `(\d+h)`, 7 `(\d+m)`, 8 `(\d+s)`.  An absent group is
the empty string, matching `_get_substring` on a `(-1, -1)` span. -/
structure PeriodScan where
  g1 : Str
  g2 : Str
  g3 : Str
  g4 : Str
  g5 : Str
  g6 : Str
  g7 : Str
  g8 : Str
  rest : Str
deriving DecidableEq

def scanPeriod (s : Str) : PeriodScan :=
  let r1 := charGroup 'p' s
  let r2 := numGroup 'y' r1.2
  let r3 := numGroup 'm' r2.2
  let r4 := numGroup 'd' r3.2
  let r5 := charGroup 't' r4.2
  let r6 := numGroup 'h' r5.2
  let r7 := numGroup 'm' r6.2
  let r8 := numGroup 's' r7.2
  ⟨r1.1, r2.1, r3.1, r4.1, r5.1, r6.1, r7.1, r8.1, r8.2⟩

inductive PeriodError
  | malformed
deriving DecidableEq

/-- Model of `period_type`.  `Except.error .malformed` stands for the bare
`raise ValueError` on an incomplete match.  Note the source reads
`match.regs[6]` (the `\d+h` group) into its `minutes` variable and
`match.regs[7]` (the post-`t` `\d+m` group) into its `hours` variable; the
embedding reproduces those reads. -/
def period_type (value : Str) : Except PeriodError Str :=
  let m := scanPeriod value
  if m.rest ≠ [] then .error PeriodError.malformed
  else if m.g1 ≠ [] ∧ m.g5 ≠ [] then .ok value
  else
    let days := m.g4
    let minutes := if m.g6 ≠ [] then m.g6 else m.g3
    let hours := m.g7
    let seconds := m.g8
    .ok (upperStr ('P' :: days ++ 'T' :: (minutes ++ hours ++ seconds)))

example : period_type ("5D2h".toList) = .ok ("P5DT2H".toList) := by decide
example : period_type ("t5m".toList) = .ok ("PT5M".toList) := by decide
example : period_type ("5y3mt".toList) = .ok ("PT3M".toList) := by decide
example : period_type ("12y".toList) = .ok ("PT".toList) := by decide
example : period_type ("5d2h".toList) = .ok ("P5DT2H".toList) := by decide
example : period_type ("30m".toList) = .ok ("PT30M".toList) := by decide
example : period_type ("p1dt2h".toList) = .ok ("p1dt2h".toList) := by decide
example : period_type ("P1DT2H".toList) = .ok ("P1DT2H".toList) := by decide
example : period_type ("xx".toList) = .error PeriodError.malformed := by decide
example : period_type ("5m6".toList) = .error PeriodError.malformed := by decide
example : period_type ([]) = .ok ("PT".toList) := by decide
example : period_type ("30m20m".toList) = .ok ("PT30M20M".toList) := by decide
example : period_type ("3m2h".toList) = .ok ("PT2H".toList) := by decide

/-! ## `timezone_offset_type` -/

inductive TZError
  | offsetOutOfRange
  | valueError
deriving DecidableEq

/-- Model of `timezone_offset_type`.  The `hour, minute = value.split(':')`
unpack succeeds exactly when the split yields two parts; otherwise the whole
input is taken as the hour and the minute is absent.  `TZError.valueError`
stands for the uncaught `ValueError` of `int(...)` on a non-numeric hour. -/
def timezone_offset_type (value : Str) : Except TZError Str :=
  let hm : Str × Option Str :=
    match pySplit ':' value with
    | [h, m] => (h, some m)
    | _ => (value, none)
  match parsePyInt hm.1 with
  | none => .error TZError.valueError
  | some hour =>
    if 14 < hour ∨ hour < -12 then .error TZError.offsetOutOfRange
    else
      let v1 : Str :=
        if 0 ≤ hour ∧ hour < 10 then '+' :: '0' :: natDigits hour.toNat
        else if 10 ≤ hour then '+' :: natDigits hour.toNat
        else if hour < 0 ∧ -10 < hour then '-' :: '0' :: natDigits (-hour).toNat
        else intToStr hour
      match hm.2 with
      | some m => if m ≠ [] then .ok (v1 ++ ':' :: m) else .ok v1
      | none => .ok v1

example : timezone_offset_type ("5".toList) = .ok ("+05".toList) := by decide
example : timezone_offset_type ("-3".toList) = .ok ("-03".toList) := by decide
example : timezone_offset_type ("15".toList) = .error TZError.offsetOutOfRange := by decide
example : timezone_offset_type ("-13".toList) = .error TZError.offsetOutOfRange := by decide
example : timezone_offset_type ("14".toList) = .ok ("+14".toList) := by decide
example : timezone_offset_type ("-12".toList) = .ok ("-12".toList) := by decide
example : timezone_offset_type ("5:30".toList) = .ok ("+05:30".toList) := by decide
example : timezone_offset_type ("0".toList) = .ok ("+00".toList) := by decide
example : timezone_offset_type ("-10".toList) = .ok ("-10".toList) := by decide
example : timezone_offset_type ("5:".toList) = .ok ("+05".toList) := by decide

/-! ## Lookup maps and target data model

The maps in `...monitor/util.py` and the `azure.mgmt.monitor.models`
constructors are not part of the sources under verification; they are
modelled from the spec. -/

/-- Modelled from the spec: the alert condition operator enum of the
management API (`get_operator_map` keys `>`, `>=`, `<`, `<=`). -/
inductive CondOperator
  | greaterThan
  | greaterThanOrEqual
  | lessThan
  | lessThanOrEqual
deriving DecidableEq

/-- Modelled from the spec: `get_operator_map()` — case-sensitive mapping of
the four comparison operators. -/
def get_operator_map : List (Str × CondOperator) :=
  [(">".toList, CondOperator.greaterThan),
   (">=".toList, CondOperator.greaterThanOrEqual),
   ("<".toList, CondOperator.lessThan),
   ("<=".toList, CondOperator.lessThanOrEqual)]

/-- Modelled from the spec: the alert aggregation enum
(`get_aggregation_map` keys `avg`, `min`, `max`, `total`, `last`). -/
inductive RuleAggregation
  | avg
  | min
  | max
  | total
  | last
deriving DecidableEq

/-- Modelled from the spec: `get_aggregation_map()`. -/
def get_aggregation_map : List (Str × RuleAggregation) :=
  [("avg".toList, RuleAggregation.avg),
   ("min".toList, RuleAggregation.min),
   ("max".toList, RuleAggregation.max),
   ("total".toList, RuleAggregation.total),
   ("last".toList, RuleAggregation.last)]

/-- Modelled from the spec: `RuleMetricDataSource(resource_uri, metric_name)`;
the target URI is deferred (`none`). -/
structure RuleMetricDataSource where
  resourceUri : Option Str
  metricName : Str
deriving DecidableEq

/-- Modelled from the spec: `ThresholdRuleCondition(operator, threshold,
data_source, window_size, time_aggregation)`. -/
structure ThresholdRuleCondition where
  operator : CondOperator
  threshold : Int
  dataSource : RuleMetricDataSource
  windowSize : Str
  timeAggregation : RuleAggregation
deriving DecidableEq

/-- The argparse namespace fields touched by `ConditionAction`. -/
structure CondNamespace where
  description : Option Str
  condition : Option ThresholdRuleCondition
deriving DecidableEq

inductive CondError
  | usage
  | keyError
  | valueError
deriving DecidableEq

/-- Model of `ConditionAction.__call__`.  Returns the namespace as mutated up
to the point of any raised exception, paired with the exception raised
(`none` on success).  `CondError.usage` is the explicit
`CLIError('usage error: ...')`; `keyError` the uncaught map lookups;
`valueError` the uncaught `int(...)` or `period_type` failures. -/
def ConditionAction_call (ns : CondNamespace) (values : List Str) :
    CondNamespace × Option CondError :=
  let ns1 := match ns.description with
    | none => { ns with description := some (joinSpaces values) }
    | some _ => ns
  let vs := resplit values
  if vs.length < 5 then (ns1, some CondError.usage)
  else
    let metric_name := joinSpaces (vs.take (vs.length - 4))
    match lookupStr get_operator_map (vs.getD (vs.length - 4) []) with
    | none => (ns1, some CondError.keyError)
    | some operator =>
      match parsePyInt (vs.getD (vs.length - 3) []) with
      | none => (ns1, some CondError.valueError)
      | some threshold =>
        match lookupStr get_aggregation_map (lowerStr (vs.getD (vs.length - 2) [])) with
        | none => (ns1, some CondError.keyError)
        | some aggregation =>
          match period_type (vs.getD (vs.length - 1) []) with
          | .error _ => (ns1, some CondError.valueError)
          | .ok window =>
            let metric : RuleMetricDataSource := ⟨none, metric_name⟩
            let condition : ThresholdRuleCondition :=
              ⟨operator, threshold, metric, window, aggregation⟩
            ({ ns1 with condition := some condition }, none)

example :
    ConditionAction_call ⟨none, none⟩
      ["cpu".toList, "percentage".toList, ">".toList, "80".toList, "avg".toList, "5m".toList] =
    (⟨some ("cpu percentage > 80 avg 5m".toList),
      some ⟨CondOperator.greaterThan, 80, ⟨none, "cpu percentage".toList⟩,
            "PT5M".toList, RuleAggregation.avg⟩⟩, none) := by decide

example :
    ConditionAction_call ⟨none, none⟩ ["cpu > 80 avg 5m".toList] =
    (⟨some ("cpu > 80 avg 5m".toList),
      some ⟨CondOperator.greaterThan, 80, ⟨none, "cpu".toList⟩,
            "PT5M".toList, RuleAggregation.avg⟩⟩, none) := by decide

example :
    ConditionAction_call ⟨none, none⟩ ["a".toList, "b".toList, "c".toList] =
    (⟨some ("a b c".toList), none⟩, some CondError.usage) := by decide

/-! ## `AutoscaleConditionAction` -/

/-- Modelled from the spec: the autoscale comparison operator enum
(`get_autoscale_operator_map` keys `==`, `!=`, `>`, `>=`, `<`, `<=`). -/
inductive AOperator
  | equals
  | notEquals
  | greaterThan
  | greaterThanOrEqual
  | lessThan
  | lessThanOrEqual
deriving DecidableEq

/-- Modelled from the spec: `get_autoscale_operator_map()`. -/
def get_autoscale_operator_map : List (Str × AOperator) :=
  [("==".toList, AOperator.equals),
   ("!=".toList, AOperator.notEquals),
   (">".toList, AOperator.greaterThan),
   (">=".toList, AOperator.greaterThanOrEqual),
   ("<".toList, AOperator.lessThan),
   ("<=".toList, AOperator.lessThanOrEqual)]

/-- Modelled from the spec: the autoscale aggregation enum
(`get_autoscale_aggregation_map` keys `avg`, `min`, `max`, `total`, `count`). -/
inductive AAggregation
  | avg
  | min
  | max
  | total
  | count
deriving DecidableEq

/-- Modelled from the spec: `get_autoscale_aggregation_map()`. -/
def get_autoscale_aggregation_map : List (Str × AAggregation) :=
  [("avg".toList, AAggregation.avg),
   ("min".toList, AAggregation.min),
   ("max".toList, AAggregation.max),
   ("total".toList, AAggregation.total),
   ("count".toList, AAggregation.count)]

/-- Modelled from the spec: `MetricTrigger(...)`; the resource URI, time
grain and statistic are deferred (`none`). -/
structure MetricTrigger where
  metricName : Str
  metricResourceUri : Option Str
  timeGrain : Option Str
  statistic : Option Str
  timeWindow : Str
  timeAggregation : AAggregation
  operator : AOperator
  threshold : Int
deriving DecidableEq

/-- The Python exception kinds that can occur inside the `try` block of
`AutoscaleConditionAction.__call__`. -/
inductive PyExc
  | indexError
  | keyError
  | valueError
deriving DecidableEq

/-- The body of the `try` block of `AutoscaleConditionAction.__call__`,
evaluated in source order on the (already re-split) token list. -/
def autoscaleCondInner (vs : List Str) : Except PyExc MetricTrigger :=
  let metric_name := joinSpaces (vs.take (vs.length - 4))
  match pyNegGet vs 4 with
  | none => .error PyExc.indexError
  | some opTok =>
    match lookupStr get_autoscale_operator_map opTok with
    | none => .error PyExc.keyError
    | some operator =>
      match pyNegGet vs 3 with
      | none => .error PyExc.indexError
      | some thTok =>
        match parsePyInt thTok with
        | none => .error PyExc.valueError
        | some threshold =>
          match pyNegGet vs 2 with
          | none => .error PyExc.indexError
          | some aggTok =>
            match lookupStr get_autoscale_aggregation_map (lowerStr aggTok) with
            | none => .error PyExc.keyError
            | some aggregation =>
              match pyNegGet vs 1 with
              | none => .error PyExc.indexError
              | some winTok =>
                match period_type winTok with
                | .error _ => .error PyExc.valueError
                | .ok window =>
                  .ok ⟨metric_name, none, none, none, window, aggregation, operator, threshold⟩

inductive ACondError
  | usage
  | valueError
deriving DecidableEq

/-- Model of `AutoscaleConditionAction.__call__`: the single-token re-split,
then the `try` block with `except (IndexError, KeyError)` coalesced into the
one `CLIError('usage error: ...')`; `ValueError` propagates uncaught. -/
def AutoscaleConditionAction_call (values : List Str) : Except ACondError MetricTrigger :=
  let vs := resplit values
  match autoscaleCondInner vs with
  | .ok t => .ok t
  | .error PyExc.indexError => .error ACondError.usage
  | .error PyExc.keyError => .error ACondError.usage
  | .error PyExc.valueError => .error ACondError.valueError

example :
    AutoscaleConditionAction_call
      ["cpu".toList, "percentage".toList, "==".toList, "80".toList, "count".toList, "5m".toList] =
    .ok ⟨"cpu percentage".toList, none, none, none, "PT5M".toList,
         AAggregation.count, AOperator.equals, 80⟩ := by decide
example :
    AutoscaleConditionAction_call ["a".toList, "b".toList, "c".toList] =
    .error ACondError.usage := by decide
example :
    AutoscaleConditionAction_call
      ["cpu".toList, "@".toList, "80".toList, "avg".toList, "5m".toList] =
    .error ACondError.usage := by decide
example :
    AutoscaleConditionAction_call
      ["cpu".toList, ">".toList, "eighty".toList, "avg".toList, "5m".toList] =
    .error ACondError.valueError := by decide

/-! ## `AutoscaleScaleAction` -/

/-- Modelled from the spec: the scale direction enum (`in`/`out`/`to` map to
decrease/increase/the set-to direction). -/
inductive ScaleDirection
  | increase
  | decrease
  | setTo
deriving DecidableEq

/-- Modelled from the spec: `get_autoscale_scale_direction_map()`. -/
def get_autoscale_scale_direction_map : List (Str × ScaleDirection) :=
  [("in".toList, ScaleDirection.decrease),
   ("out".toList, ScaleDirection.increase),
   ("to".toList, ScaleDirection.setTo)]

/-- Modelled from the spec: the `ScaleType` enum values referenced by the
source (`exact_count`, `percent_change_count`, `change_count`). -/
inductive ScaleType
  | exact_count
  | percent_change_count
  | change_count
deriving DecidableEq

/-- Modelled from the spec: `ScaleAction(direction, type, cooldown, value)`;
cooldown is deferred (`none`). -/
structure ScaleActionModel where
  direction : ScaleDirection
  type : ScaleType
  cooldown : Option Nat
  value : Str
deriving DecidableEq

inductive ScaleError
  | usage
  | keyError
deriving DecidableEq

/-- Model of `AutoscaleScaleAction.__call__`: single-token re-split, exact
arity-2 check (`CLIError` otherwise), the `to`/percent/absolute
classification, then the direction map lookup (whose `KeyError` propagates
uncaught). -/
def AutoscaleScaleAction_call (values : List Str) : Except ScaleError ScaleActionModel :=
  match resplit values with
  | [dir_val, amt_val] =>
    let ta : ScaleType × Str :=
      if dir_val = "to".toList then (ScaleType.exact_count, amt_val)
      else if amt_val.getLast? = some '%' then (ScaleType.percent_change_count, amt_val.dropLast)
      else (ScaleType.change_count, amt_val)
    match lookupStr get_autoscale_scale_direction_map dir_val with
    | none => .error ScaleError.keyError
    | some direction => .ok ⟨direction, ta.1, none, ta.2⟩
  | _ => .error ScaleError.usage

example :
    AutoscaleScaleAction_call ["to".toList, "5".toList] =
    .ok ⟨ScaleDirection.setTo, ScaleType.exact_count, none, "5".toList⟩ := by decide
example :
    AutoscaleScaleAction_call ["out".toList, "10%".toList] =
    .ok ⟨ScaleDirection.increase, ScaleType.percent_change_count, none, "10".toList⟩ := by decide
example :
    AutoscaleScaleAction_call ["in".toList, "3".toList] =
    .ok ⟨ScaleDirection.decrease, ScaleType.change_count, none, "3".toList⟩ := by decide
example :
    AutoscaleScaleAction_call ["in 3".toList] =
    .ok ⟨ScaleDirection.decrease, ScaleType.change_count, none, "3".toList⟩ := by decide
example :
    AutoscaleScaleAction_call ["to".toList] = .error ScaleError.usage := by decide
example :
    AutoscaleScaleAction_call ["up".toList, "3".toList] = .error ScaleError.keyError := by decide

/-! ## `AlertAddAction` / `AutoscaleAddAction` -/

/-- Split on the first `=`, model of Python `x.split('=', 1)`:
`some (k, v)` when `=` occurs, `none` when it does not (the one-element
result that makes `dict(...)` raise `ValueError`). -/
def splitFirstEq : Str → Option (Str × Str)
  | [] => none
  | c :: cs =>
    if c = '=' then some ([], cs)
    else
      match splitFirstEq cs with
      | none => none
      | some (k, v) => some (c :: k, v)

/-- Python `dict` insertion: a later binding for an existing key replaces
the value in place, a new key is appended. -/
def dictInsert (m : List (Str × Str)) (k v : Str) : List (Str × Str) :=
  match m with
  | [] => [(k, v)]
  | (k0, v0) :: rest => if k0 = k then (k0, v) :: rest else (k0, v0) :: dictInsert rest k v

/-- Model of Python `dict(pairs)`. -/
def pyDict (ps : List (Str × Str)) : List (Str × Str) :=
  ps.foldl (fun m kv => dictInsert m kv.1 kv.2) []

/-- Modelled from the spec: the alert notification variants
(`RuleEmailAction(custom_emails)` / `RuleWebhookAction(uri, properties)`). -/
inductive RuleAction
  | email (customEmails : List Str)
  | webhook (uri : Str) (properties : List (Str × Str))
deriving DecidableEq

/-- Errors of the add-action parsers: `usage` stands for the
`CLIError('usage error: ...')` raises (for both the malformed `KEY=VALUE`
pair and the unrecognized type tag), `indexError` for the uncaught
`values[0]`/`values[1]` on too-short input. -/
inductive AddActionError
  | usage
  | indexError
deriving DecidableEq

/-- Model of `AlertAddAction.get_action`. -/
def AlertAddAction_get_action (values : List Str) : Except AddActionError RuleAction :=
  match values with
  | [] => .error AddActionError.indexError
  | v0 :: rest =>
    let t := lowerStr v0
    if t = "email".toList then .ok (RuleAction.email rest)
    else if t = "webhook".toList then
      match rest with
      | [] => .error AddActionError.indexError
      | uri :: props =>
        match props.mapM splitFirstEq with
        | none => .error AddActionError.usage
        | some ps => .ok (RuleAction.webhook uri (pyDict ps))
    else .error AddActionError.usage

/-- Modelled from the spec: the autoscale notification variants
(`EmailNotification(custom_emails)` / `WebhookNotification(uri, properties)`). -/
inductive AutoscaleNotification
  | email (customEmails : List Str)
  | webhook (uri : Str) (properties : List (Str × Str))
deriving DecidableEq

/-- Model of `AutoscaleAddAction.get_action` (same token logic as
`AlertAddAction.get_action`, different target constructors). -/
def AutoscaleAddAction_get_action (values : List Str) :
    Except AddActionError AutoscaleNotification :=
  match values with
  | [] => .error AddActionError.indexError
  | v0 :: rest =>
    let t := lowerStr v0
    if t = "email".toList then .ok (AutoscaleNotification.email rest)
    else if t = "webhook".toList then
      match rest with
      | [] => .error AddActionError.indexError
      | uri :: props =>
        match props.mapM splitFirstEq with
        | none => .error AddActionError.usage
        | some ps => .ok (AutoscaleNotification.webhook uri (pyDict ps))
    else .error AddActionError.usage

/-- Modelled from the spec: one `AlertAddAction.__call__` invocation against
the accumulator list on the namespace — the CLI framework's append action
copies the current list and appends the parsed result (`none` initial value
behaving as the empty list). -/
def AlertAddAction_call (acc : List RuleAction) (values : List Str) :
    Except AddActionError (List RuleAction) :=
  match AlertAddAction_get_action values with
  | .error e => .error e
  | .ok a => .ok (acc ++ [a])

/-- A sequence of `AlertAddAction.__call__` invocations against the same
namespace, stopping at the first raised error. -/
def foldAddActions (acc : List RuleAction) : List (List Str) →
    Except AddActionError (List RuleAction)
  | [] => .ok acc
  | v :: rest =>
    match AlertAddAction_call acc v with
    | .error e => .error e
    | .ok acc2 => foldAddActions acc2 rest

example :
    AlertAddAction_get_action ["webhook".toList, "http://x".toList, "k1=v1".toList, "k2=v2".toList] =
    .ok (RuleAction.webhook ("http://x".toList)
          [("k1".toList, "v1".toList), ("k2".toList, "v2".toList)]) := by decide
example :
    AlertAddAction_get_action ["webhook".toList, "http://x".toList, "bad".toList] =
    .error AddActionError.usage := by decide
example :
    AlertAddAction_get_action ["EMAIL".toList, "a@b".toList] =
    .ok (RuleAction.email [("a@b".toList)]) := by decide
example :
    AlertAddAction_get_action ["sms".toList, "x".toList] =
    .error AddActionError.usage := by decide
example :
    AutoscaleAddAction_get_action ["webhook".toList, "http://x".toList, "k=v".toList, "k=w".toList] =
    .ok (AutoscaleNotification.webhook ("http://x".toList) [("k".toList, "w".toList)]) := by decide

/-! ## The normalized-duration invariant checker

`durationOk` decides, case-insensitively, the spec's Duration invariant:
the string begins with `P`, contains a `T` separating the date part from the
time part, the date part carries only Y/M/D unit letters in that order and
the time part only H/M/S unit letters in that order. -/

/-- Split at the first `t`: `some (before, after)` when a `t` occurs. -/
def splitFirstT : Str → Option (Str × Str)
  | [] => none
  | c :: cs =>
    if c = 't' then some ([], cs)
    else
      match splitFirstT cs with
      | none => none
      | some (a, b) => some (c :: a, b)

/-- Rank of the date-part unit letters `y < m < d`. -/
def dateRank (c : Char) : Option Nat :=
  if c = 'y' then some 0 else if c = 'm' then some 1 else if c = 'd' then some 2 else none

/-- Rank of the time-part unit letters `h < m < s`. -/
def timeRank (c : Char) : Option Nat :=
  if c = 'h' then some 0 else if c = 'm' then some 1 else if c = 's' then some 2 else none

/-- Digits are skipped; every unit letter must be recognized by `rank` and
the ranks must be non-decreasing, starting no lower than `lo`. -/
def unitsOk (rank : Char → Option Nat) (lo : Nat) : Str → Bool
  | [] => true
  | c :: cs =>
    if isDig c then unitsOk rank lo cs
    else
      match rank c with
      | some k => decide (lo ≤ k) && unitsOk rank k cs
      | none => false

/-- Checks the two halves produced by the `t`-split. -/
def durationOkSplit : Option (Str × Str) → Bool
  | none => false
  | some (bef, aft) =>
    !(hasChar 't' aft) && unitsOk dateRank 0 bef && unitsOk timeRank 0 aft

/-- The invariant on an already lower-cased string. -/
def durationOkCore : Str → Bool
  | [] => false
  | c :: rest => if c = 'p' then durationOkSplit (splitFirstT rest) else false

/-- The Duration invariant, decided case-insensitively. -/
def durationOk (out : Str) : Bool := durationOkCore (lowerStr out)

example : durationOk ("P5DT2H".toList) = true := by decide
example : durationOk ("p1dt2h".toList) = true := by decide
example : durationOk ("PT".toList) = true := by decide
example : durationOk ("PT30M20M".toList) = true := by decide
example : durationOk ("P1Y2M3DT4H5M6S".toList) = true := by decide
example : durationOk ("5DT2H".toList) = false := by decide
example : durationOk ("P5D".toList) = false := by decide
example : durationOk ("PT2M1H".toList) = false := by decide
example : durationOk ("P2H".toList) = false := by decide

/-! ## Character-level lemmas -/

theorem val_toNat_ofNat_valid (n : Nat) (h : n.isValidChar) :
    (Char.ofNat n).val.toNat = n := by
  simp only [Char.ofNat, dif_pos h, Char.ofNatAux]
  rfl

/-- Lower-casing after upper-casing is plain lower-casing (on every scalar). -/
theorem toLower_toUpper (c : Char) : c.toUpper.toLower = c.toLower := by
  simp only [Char.toUpper, Char.toLower, Char.toNat]
  split
  · rename_i h
    have hv : (c.val.toNat - 32).isValidChar := Or.inl (by omega)
    rw [val_toNat_ofNat_valid _ hv]
    rw [if_pos (by omega : (c.val.toNat - 32) ≥ 65 ∧ (c.val.toNat - 32) ≤ 90)]
    rw [if_neg (by omega : ¬(c.val.toNat ≥ 65 ∧ c.val.toNat ≤ 90))]
    have h32 : c.val.toNat - 32 + 32 = c.val.toNat := by omega
    rw [h32]
    have h2 := Char.ofNat_toNat c
    simpa [Char.toNat] using h2
  · rfl

theorem isDig_toLower {c : Char} (h : isDig c = true) : c.toLower = c := by
  simp only [isDig, decide_eq_true_eq] at h
  rcases h with rfl | rfl | rfl | rfl | rfl | rfl | rfl | rfl | rfl | rfl <;> decide

theorem isDig_ne_t {c : Char} (h : isDig c = true) : c ≠ 't' := by
  intro hc
  rw [hc] at h
  exact absurd h (by decide)

theorem lowerStr_append (a b : Str) : lowerStr (a ++ b) = lowerStr a ++ lowerStr b :=
  List.map_append Char.toLower a b

theorem lowerStr_upperStr (z : Str) : lowerStr (upperStr z) = lowerStr z := by
  induction z with
  | nil => rfl
  | cons c cs ih =>
    simp only [upperStr, lowerStr, List.map_cons] at *
    rw [toLower_toUpper, ih]

/-! ## Shape and decomposition lemmas for `scanPeriod` -/

/-- The text a `(\d+x)?` group can match: nothing, or a nonempty digit run
followed by one letter that lower-cases to `x`. -/
def GroupIs (u : Char) (g : Str) : Prop :=
  g = [] ∨ ∃ ds c, g = ds ++ [c] ∧ ds ≠ [] ∧ (∀ a ∈ ds, isDig a = true) ∧ c.toLower = u

/-- The text an `(x)?` marker group can match. -/
def MarkIs (u : Char) (g : Str) : Prop :=
  g = [] ∨ ∃ c, g = [c] ∧ c.toLower = u

theorem takeDigits_spec (s : Str) :
    (takeDigits s).1 ++ (takeDigits s).2 = s ∧ ∀ c ∈ (takeDigits s).1, isDig c = true := by
  induction s with
  | nil => exact ⟨rfl, by intro c hc; cases hc⟩
  | cons c cs ih =>
    by_cases h : isDig c = true
    · simp only [takeDigits, h, if_pos]
      refine ⟨by simpa using ih.1, ?_⟩
      intro a ha
      rcases List.mem_cons.mp ha with rfl | ha2
      · exact h
      · exact ih.2 a ha2
    · have htd : takeDigits (c :: cs) = ([], c :: cs) := by
        simp [takeDigits, h]
      rw [htd]
      exact ⟨rfl, by intro a ha; cases ha⟩

theorem numGroup_spec (x : Char) (s : Str) :
    (numGroup x s).1 ++ (numGroup x s).2 = s ∧ GroupIs x (numGroup x s).1 := by
  have hs := takeDigits_spec s
  unfold numGroup
  rcases hd : takeDigits s with ⟨d, r⟩
  rw [hd] at hs
  match d, r with
  | [], _ => exact ⟨rfl, Or.inl rfl⟩
  | _ :: _, [] => exact ⟨rfl, Or.inl rfl⟩
  | d0 :: ds, c :: r2 =>
    by_cases hx : c.toLower = x
    · simp only [hx, if_pos]
      constructor
      · rw [← hs.1]
        simp
      · exact Or.inr ⟨d0 :: ds, c, rfl, by simp, hs.2, hx⟩
    · simp only [hx, if_neg, ite_false]
      exact ⟨rfl, Or.inl rfl⟩

theorem charGroup_spec (x : Char) (s : Str) :
    (charGroup x s).1 ++ (charGroup x s).2 = s ∧ MarkIs x (charGroup x s).1 := by
  match s with
  | [] => exact ⟨rfl, Or.inl rfl⟩
  | c :: cs =>
    by_cases hx : c.toLower = x
    · simp only [charGroup, hx, if_pos]
      exact ⟨rfl, Or.inr ⟨c, rfl, hx⟩⟩
    · simp only [charGroup, hx, if_neg, ite_false]
      exact ⟨rfl, Or.inl rfl⟩

/-- The eight groups and the unmatched suffix partition the input. -/
theorem scanPeriod_decomp (s : Str) :
    (scanPeriod s).g1 ++ ((scanPeriod s).g2 ++ ((scanPeriod s).g3 ++ ((scanPeriod s).g4 ++
      ((scanPeriod s).g5 ++ ((scanPeriod s).g6 ++ ((scanPeriod s).g7 ++
      ((scanPeriod s).g8 ++ (scanPeriod s).rest))))))) = s := by
  simp only [scanPeriod]
  rw [(numGroup_spec 's' _).1, (numGroup_spec 'm' _).1, (numGroup_spec 'h' _).1,
      (charGroup_spec 't' _).1, (numGroup_spec 'd' _).1, (numGroup_spec 'm' _).1,
      (numGroup_spec 'y' _).1, (charGroup_spec 'p' _).1]

/-- The shapes of the eight groups. -/
theorem scanPeriod_shapes (s : Str) :
    MarkIs 'p' (scanPeriod s).g1 ∧ GroupIs 'y' (scanPeriod s).g2 ∧
    GroupIs 'm' (scanPeriod s).g3 ∧ GroupIs 'd' (scanPeriod s).g4 ∧
    MarkIs 't' (scanPeriod s).g5 ∧ GroupIs 'h' (scanPeriod s).g6 ∧
    GroupIs 'm' (scanPeriod s).g7 ∧ GroupIs 's' (scanPeriod s).g8 := by
  simp only [scanPeriod]
  exact ⟨(charGroup_spec 'p' _).2, (numGroup_spec 'y' _).2, (numGroup_spec 'm' _).2,
         (numGroup_spec 'd' _).2, (charGroup_spec 't' _).2, (numGroup_spec 'h' _).2,
         (numGroup_spec 'm' _).2, (numGroup_spec 's' _).2⟩

/-! ## Lemmas about the invariant checker -/

theorem hasChar_eq_false {x : Char} {s : Str} :
    hasChar x s = false ↔ ∀ c ∈ s, ¬(c = x) := by
  induction s with
  | nil => simp [hasChar]
  | cons c cs ih =>
    simp only [hasChar, List.mem_cons]
    by_cases hc : c = x
    · rw [if_pos hc]
      constructor
      · intro h; cases h
      · intro h; exact absurd hc (h c (Or.inl rfl))
    · rw [if_neg hc, ih]
      constructor
      · rintro h a (rfl | ha)
        · exact hc
        · exact h a ha
      · intro h a ha
        exact h a (Or.inr ha)

theorem hasChar_append_false {x : Char} {a b : Str}
    (ha : hasChar x a = false) (hb : hasChar x b = false) :
    hasChar x (a ++ b) = false := by
  rw [hasChar_eq_false] at *
  intro c hc
  rcases List.mem_append.mp hc with h | h
  · exact ha c h
  · exact hb c h

theorem splitFirstT_append {a : Str} (b : Str) (h : hasChar 't' a = false) :
    splitFirstT (a ++ 't' :: b) = some (a, b) := by
  induction a with
  | nil => simp [splitFirstT]
  | cons c cs ih =>
    simp only [hasChar] at h
    by_cases hc : c = 't'
    · rw [if_pos hc] at h
      cases h
    · rw [if_neg hc] at h
      simp only [List.cons_append, splitFirstT, if_neg hc, List.append_eq, ih h]

theorem unitsOk_mono {rank : Char → Option Nat} {k : Nat} {s : Str}
    (hs : unitsOk rank k s = true) {lo : Nat} (hlo : lo ≤ k) :
    unitsOk rank lo s = true := by
  induction s generalizing lo k with
  | nil => rfl
  | cons c cs ih =>
    by_cases hd : isDig c = true
    · simp only [unitsOk, hd, if_pos] at *
      exact ih hs hlo
    · simp only [unitsOk, hd, Bool.false_eq_true, ite_false] at *
      match hr : rank c with
      | some j =>
        rw [hr] at hs
        simp only [Bool.and_eq_true, decide_eq_true_eq] at hs
        simp only [Bool.and_eq_true, decide_eq_true_eq]
        exact ⟨Nat.le_trans hlo hs.1, hs.2⟩
      | none => rw [hr] at hs; cases hs

theorem unitsOk_digits {ds : Str} (h : ∀ c ∈ ds, isDig c = true)
    (rank : Char → Option Nat) (lo : Nat) (rest : Str) :
    unitsOk rank lo (ds ++ rest) = unitsOk rank lo rest := by
  induction ds with
  | nil => rfl
  | cons c cs ih =>
    have hc : isDig c = true := h c (List.mem_cons_self c cs)
    simp only [List.cons_append, unitsOk, hc, if_pos]
    exact ih fun a ha => h a (List.mem_cons_of_mem c ha)

theorem unitsOk_unit {rank : Char → Option Nat} {u : Char} {k : Nat}
    (hu : rank u = some k) (hd : isDig u = false) {lo : Nat} (hlo : lo ≤ k)
    {rest : Str} (hrest : unitsOk rank k rest = true) :
    unitsOk rank lo (u :: rest) = true := by
  simp only [unitsOk, hd, Bool.false_eq_true, ite_false, hu, Bool.and_eq_true,
    decide_eq_true_eq]
  exact ⟨hlo, hrest⟩

/-- Lower-cased form of a `(\d+x)?` group text. -/
theorem lower_GroupIs {u : Char} {g : Str} (h : GroupIs u g) :
    lowerStr g = [] ∨ ∃ ds, lowerStr g = ds ++ [u] ∧ ∀ c ∈ ds, isDig c = true := by
  rcases h with rfl | ⟨ds, c, rfl, _, hds, hc⟩
  · exact Or.inl rfl
  · refine Or.inr ⟨lowerStr ds, ?_, ?_⟩
    · rw [lowerStr_append]
      simp [lowerStr, hc]
    · intro a ha
      rcases List.mem_map.mp ha with ⟨b, hb, rfl⟩
      rw [isDig_toLower (hds b hb)]
      exact hds b hb

/-- A lowered group contributes no `t` when its unit letter is not `t`. -/
theorem hasChar_t_lowerGroup {u : Char} {g : Str} (h : GroupIs u g) (hu : u ≠ 't') :
    hasChar 't' (lowerStr g) = false := by
  rcases lower_GroupIs h with h0 | ⟨ds, heq, hds⟩
  · rw [h0]; rfl
  · rw [heq, hasChar_eq_false]
    intro c hc
    rcases List.mem_append.mp hc with hmem | hmem
    · exact isDig_ne_t (hds c hmem)
    · rcases List.mem_singleton.mp hmem with rfl
      exact hu

/-- Appending a lowered group in front preserves `unitsOk`, moving the floor
from `lo` to the group's rank `k`. -/
theorem unitsOk_lowerGroup {rank : Char → Option Nat} {u : Char} {k : Nat} {g : Str}
    (hg : GroupIs u g) (hu : rank u = some k) (hd : isDig u = false)
    {lo : Nat} (hlo : lo ≤ k) {rest : Str} (hrest : unitsOk rank k rest = true) :
    unitsOk rank lo (lowerStr g ++ rest) = true := by
  rcases lower_GroupIs hg with h0 | ⟨ds, heq, hds⟩
  · rw [h0]
    exact unitsOk_mono hrest hlo
  · rw [heq, List.append_assoc, unitsOk_digits hds]
    exact unitsOk_unit hu hd hlo hrest

theorem unitsOk_lowerGroup_nil {rank : Char → Option Nat} {u : Char} {k : Nat} {g : Str}
    (hg : GroupIs u g) (hu : rank u = some k) (hd : isDig u = false)
    {lo : Nat} (hlo : lo ≤ k) :
    unitsOk rank lo (lowerStr g) = true := by
  have h := unitsOk_lowerGroup hg hu hd hlo (rfl : unitsOk rank k [] = true)
  simpa using h

/-- Every string `period_type` returns satisfies the (case-insensitive)
Duration invariant. -/
theorem period_type_durationOk (s out : Str) (h : period_type s = .ok out) :
    durationOk out = true := by
  have hdec := scanPeriod_decomp s
  obtain ⟨h1, h2, h3, h4, h5, h6, h7, h8⟩ := scanPeriod_shapes s
  have hP : Char.toLower 'P' = 'p' := by decide
  have hT : Char.toLower 'T' = 't' := by decide
  simp only [period_type] at h
  by_cases hrest : (scanPeriod s).rest = []
  case neg =>
    rw [if_pos hrest] at h
    cases h
  case pos =>
    rw [if_neg (by simp [hrest])] at h
    by_cases hpt : (scanPeriod s).g1 ≠ [] ∧ (scanPeriod s).g5 ≠ []
    · rw [if_pos hpt, Except.ok.injEq] at h
      subst h
      rcases h1 with hg1 | ⟨c1, hg1, hc1⟩
      · exact absurd hg1 hpt.1
      rcases h5 with hg5 | ⟨c5, hg5, hc5⟩
      · exact absurd hg5 hpt.2
      have hA : hasChar 't' (lowerStr (scanPeriod s).g2 ++
          (lowerStr (scanPeriod s).g3 ++ lowerStr (scanPeriod s).g4)) = false :=
        hasChar_append_false (hasChar_t_lowerGroup h2 (by decide))
          (hasChar_append_false (hasChar_t_lowerGroup h3 (by decide))
            (hasChar_t_lowerGroup h4 (by decide)))
      have hB : hasChar 't' (lowerStr (scanPeriod s).g6 ++
          (lowerStr (scanPeriod s).g7 ++ lowerStr (scanPeriod s).g8)) = false :=
        hasChar_append_false (hasChar_t_lowerGroup h6 (by decide))
          (hasChar_append_false (hasChar_t_lowerGroup h7 (by decide))
            (hasChar_t_lowerGroup h8 (by decide)))
      have hUA : unitsOk dateRank 0 (lowerStr (scanPeriod s).g2 ++
          (lowerStr (scanPeriod s).g3 ++ lowerStr (scanPeriod s).g4)) = true := by
        refine unitsOk_lowerGroup h2 (show dateRank 'y' = some 0 by decide)
          (by decide) (Nat.le_refl 0) ?_
        refine unitsOk_lowerGroup h3 (show dateRank 'm' = some 1 by decide)
          (by decide) (by omega) ?_
        exact unitsOk_lowerGroup_nil h4 (show dateRank 'd' = some 2 by decide)
          (by decide) (by omega)
      have hUB : unitsOk timeRank 0 (lowerStr (scanPeriod s).g6 ++
          (lowerStr (scanPeriod s).g7 ++ lowerStr (scanPeriod s).g8)) = true := by
        refine unitsOk_lowerGroup h6 (show timeRank 'h' = some 0 by decide)
          (by decide) (Nat.le_refl 0) ?_
        refine unitsOk_lowerGroup h7 (show timeRank 'm' = some 1 by decide)
          (by decide) (by omega) ?_
        exact unitsOk_lowerGroup_nil h8 (show timeRank 's' = some 2 by decide)
          (by decide) (by omega)
      have harg : lowerStr ([c1] ++ ((scanPeriod s).g2 ++ ((scanPeriod s).g3 ++
          ((scanPeriod s).g4 ++ ([c5] ++ ((scanPeriod s).g6 ++ ((scanPeriod s).g7 ++
          ((scanPeriod s).g8 ++ [])))))))) =
          'p' :: ((lowerStr (scanPeriod s).g2 ++
            (lowerStr (scanPeriod s).g3 ++ lowerStr (scanPeriod s).g4)) ++
            't' :: (lowerStr (scanPeriod s).g6 ++
              (lowerStr (scanPeriod s).g7 ++ lowerStr (scanPeriod s).g8))) := by
        simp [lowerStr_append, lowerStr, hc1, hc5, List.append_assoc]
      rw [← hdec, hg1, hg5, hrest]
      simp only [durationOk]
      rw [harg]
      simp only [durationOkCore]
      rw [if_pos trivial, splitFirstT_append _ hA]
      simp only [durationOkSplit]
      rw [hB, hUA, hUB]
      rfl
    · rw [if_neg hpt, Except.ok.injEq] at h
      subst h
      have hA4 : hasChar 't' (lowerStr (scanPeriod s).g4) = false :=
        hasChar_t_lowerGroup h4 (by decide)
      have hUA4 : unitsOk dateRank 0 (lowerStr (scanPeriod s).g4) = true :=
        unitsOk_lowerGroup_nil h4 (show dateRank 'd' = some 2 by decide)
          (by decide) (by omega)
      have hU78 : unitsOk timeRank 1 (lowerStr (scanPeriod s).g7 ++
          lowerStr (scanPeriod s).g8) = true := by
        refine unitsOk_lowerGroup h7 (show timeRank 'm' = some 1 by decide)
          (by decide) (by omega) ?_
        exact unitsOk_lowerGroup_nil h8 (show timeRank 's' = some 2 by decide)
          (by decide) (by omega)
      have h78t : hasChar 't' (lowerStr (scanPeriod s).g7 ++
          lowerStr (scanPeriod s).g8) = false :=
        hasChar_append_false (hasChar_t_lowerGroup h7 (by decide))
          (hasChar_t_lowerGroup h8 (by decide))
      by_cases hg6 : (scanPeriod s).g6 = []
      · rw [if_neg (by simp [hg6])]
        have harg : lowerStr ('P' :: (scanPeriod s).g4 ++ 'T' ::
            ((scanPeriod s).g3 ++ (scanPeriod s).g7 ++ (scanPeriod s).g8)) =
            'p' :: (lowerStr (scanPeriod s).g4 ++
              't' :: (lowerStr (scanPeriod s).g3 ++
                (lowerStr (scanPeriod s).g7 ++ lowerStr (scanPeriod s).g8))) := by
          simp [lowerStr_append, lowerStr, hP, hT, List.append_assoc]
        simp only [durationOk]
        rw [lowerStr_upperStr, harg]
        simp only [durationOkCore]
        rw [if_pos trivial, splitFirstT_append _ hA4]
        simp only [durationOkSplit]
        have hBt : hasChar 't' (lowerStr (scanPeriod s).g3 ++
            (lowerStr (scanPeriod s).g7 ++ lowerStr (scanPeriod s).g8)) = false :=
          hasChar_append_false (hasChar_t_lowerGroup h3 (by decide)) h78t
        have hUB : unitsOk timeRank 0 (lowerStr (scanPeriod s).g3 ++
            (lowerStr (scanPeriod s).g7 ++ lowerStr (scanPeriod s).g8)) = true :=
          unitsOk_lowerGroup h3 (show timeRank 'm' = some 1 by decide)
            (by decide) (by omega) hU78
        rw [hBt, hUA4, hUB]
        rfl
      · rw [if_pos hg6]
        have harg : lowerStr ('P' :: (scanPeriod s).g4 ++ 'T' ::
            ((scanPeriod s).g6 ++ (scanPeriod s).g7 ++ (scanPeriod s).g8)) =
            'p' :: (lowerStr (scanPeriod s).g4 ++
              't' :: (lowerStr (scanPeriod s).g6 ++
                (lowerStr (scanPeriod s).g7 ++ lowerStr (scanPeriod s).g8))) := by
          simp [lowerStr_append, lowerStr, hP, hT, List.append_assoc]
        simp only [durationOk]
        rw [lowerStr_upperStr, harg]
        simp only [durationOkCore]
        rw [if_pos trivial, splitFirstT_append _ hA4]
        simp only [durationOkSplit]
        have hBt : hasChar 't' (lowerStr (scanPeriod s).g6 ++
            (lowerStr (scanPeriod s).g7 ++ lowerStr (scanPeriod s).g8)) = false :=
          hasChar_append_false (hasChar_t_lowerGroup h6 (by decide)) h78t
        have hUB : unitsOk timeRank 0 (lowerStr (scanPeriod s).g6 ++
            (lowerStr (scanPeriod s).g7 ++ lowerStr (scanPeriod s).g8)) = true :=
          unitsOk_lowerGroup h6 (show timeRank 'h' = some 0 by decide)
            (by decide) (Nat.le_refl 0) (unitsOk_mono hU78 (by omega))
        rw [hBt, hUA4, hUB]
        rfl

/-! ## `pySplit` lemmas -/

theorem pySplit_no_sep {sep : Char} {s : Str} (h : hasChar sep s = false) :
    pySplit sep s = [s] := by
  induction s with
  | nil => rfl
  | cons c cs ih =>
    simp only [hasChar] at h
    by_cases hc : c = sep
    · rw [if_pos hc] at h
      cases h
    · rw [if_neg hc] at h
      simp only [pySplit, if_neg hc, ih h]

theorem pySplit_once {sep : Char} {a : Str} (b : Str) (h : hasChar sep a = false) :
    pySplit sep (a ++ sep :: b) = a :: pySplit sep b := by
  induction a with
  | nil =>
    simp only [List.nil_append, pySplit]
    rw [if_pos trivial]
  | cons c cs ih =>
    simp only [hasChar] at h
    by_cases hc : c = sep
    · rw [if_pos hc] at h
      cases h
    · rw [if_neg hc] at h
      simp only [List.cons_append, pySplit, if_neg hc, List.append_eq, ih h]

/-! ## Claim theorems -/

/-- Claim C2: for every input that matches the duration grammar over its
entire length but lacks the `p` marker or the `t` marker (shorthand form),
`period_type` returns the uppercased `P{days}T{minutes}{hours}{seconds}`,
where the minutes component is the digit group right after `t` (group 6),
falling back to the digit+M group before `t` (group 3), days is group 4,
and the remaining components are groups 7 and 8; absent components are the
empty string.  In particular `"5d2h"` yields `"P5DT2H"`, `"30m"` yields
`"PT30M"`, and when all four components are empty the output is `"PT"`. -/
theorem claim_C2 :
    (∀ s : Str, (scanPeriod s).rest = [] →
      ((scanPeriod s).g1 = [] ∨ (scanPeriod s).g5 = []) →
      period_type s = .ok (upperStr ('P' :: (scanPeriod s).g4 ++ 'T' ::
        ((if (scanPeriod s).g6 ≠ [] then (scanPeriod s).g6 else (scanPeriod s).g3) ++
          (scanPeriod s).g7 ++ (scanPeriod s).g8))))
    ∧ period_type ("5d2h".toList) = .ok ("P5DT2H".toList)
    ∧ period_type ("30m".toList) = .ok ("PT30M".toList)
    ∧ period_type ("p".toList) = .ok ("PT".toList) := by
  refine ⟨?_, by decide, by decide, by decide⟩
  intro s hrest hsh
  simp only [period_type]
  rw [if_neg (by simp [hrest])]
  rw [if_neg (by rcases hsh with h | h <;> simp [h])]

/-- Witness for C2 at the concrete shorthand input `"5d2h"`. -/
theorem claim_C2_witness : period_type ("5d2h".toList) = .ok ("P5DT2H".toList) :=
  claim_C2.1 ("5d2h".toList) (by decide) (by decide)

/-- Claim C3: every input matching the duration grammar over its entire
length (case-insensitively) with both the `p` and `t` markers present is
returned unchanged, and every input not matching the grammar over its whole
length fails with the malformed-duration error. -/
theorem claim_C3 :
    (∀ s : Str, (scanPeriod s).rest = [] → (scanPeriod s).g1 ≠ [] →
      (scanPeriod s).g5 ≠ [] → period_type s = .ok s)
    ∧ (∀ s : Str, (scanPeriod s).rest ≠ [] →
      period_type s = .error PeriodError.malformed) := by
  constructor
  · intro s hrest h1 h5
    simp only [period_type]
    rw [if_neg (by simp [hrest]), if_pos ⟨h1, h5⟩]
  · intro s hrest
    simp only [period_type]
    rw [if_pos hrest]

/-- Witness for C3 at the verbatim input `"p1dt2h"`. -/
theorem claim_C3_witness : period_type ("p1dt2h".toList) = .ok ("p1dt2h".toList) :=
  claim_C3.1 ("p1dt2h".toList) (by decide) (by decide) (by decide)

/-- Counterexample to C8 as stated: the lowercase ISO-style input
`"p1dt2h"` is passed through verbatim, so the returned duration does not
begin with the uppercase letter `P`. -/
theorem claim_C8_counterexample :
    period_type ("p1dt2h".toList) = .ok ("p1dt2h".toList) ∧
    ("p1dt2h".toList).head? ≠ some 'P' :=
  ⟨by decide, by decide⟩

/-- Claim C8 (amended): every duration value `period_type` returns satisfies
the invariant up to letter case — it begins with `P` (or `p`), contains a
single `T` (or `t`) separating the date components from the time components,
with Y/M/D unit letters in that order before the separator and H/M/S unit
letters in that order after it. -/
theorem claim_C8 : ∀ s out : Str, period_type s = .ok out → durationOk out = true :=
  period_type_durationOk

/-- Witness for C8 at the concrete input `"5d2h"`. -/
theorem claim_C8_witness : durationOk ("P5DT2H".toList) = true :=
  claim_C8 ("5d2h".toList) ("P5DT2H".toList) (by decide)

/-- Claim C1: the threshold condition parser re-splits a single token on
spaces, fails with the usage error when fewer than 5 tokens result, and
otherwise takes the last four tokens as operator, threshold, aggregation and
window while all preceding tokens joined with single spaces form the metric
name; in particular `["cpu","percentage",">","80","avg","5m"]` yields metric
name `"cpu percentage"`, threshold 80 and window `"PT5M"`. -/
theorem claim_C1 :
    (∀ (ns : CondNamespace) (values : List Str),
      (resplit values).length < 5 →
      (ConditionAction_call ns values).2 = some CondError.usage)
    ∧ (∀ (ns : CondNamespace) (values : List Str)
        (op : CondOperator) (th : Int) (agg : RuleAggregation) (win : Str),
        5 ≤ (resplit values).length →
        lookupStr get_operator_map
          ((resplit values).getD ((resplit values).length - 4) []) = some op →
        parsePyInt ((resplit values).getD ((resplit values).length - 3) []) = some th →
        lookupStr get_aggregation_map
          (lowerStr ((resplit values).getD ((resplit values).length - 2) [])) = some agg →
        period_type ((resplit values).getD ((resplit values).length - 1) []) = .ok win →
        (ConditionAction_call ns values).2 = none ∧
        (ConditionAction_call ns values).1.condition =
          some ⟨op, th,
            ⟨none, joinSpaces ((resplit values).take ((resplit values).length - 4))⟩,
            win, agg⟩)
    ∧ ConditionAction_call ⟨none, none⟩
        ["cpu".toList, "percentage".toList, ">".toList, "80".toList,
         "avg".toList, "5m".toList] =
      (⟨some ("cpu percentage > 80 avg 5m".toList),
        some ⟨CondOperator.greaterThan, 80, ⟨none, "cpu percentage".toList⟩,
              "PT5M".toList, RuleAggregation.avg⟩⟩, none) := by
  refine ⟨?_, ?_, by decide⟩
  · intro ns values hlen
    unfold ConditionAction_call
    rw [if_pos hlen]
  · intro ns values op th agg win hlen hop hth hagg hwin
    unfold ConditionAction_call
    rw [if_neg (by omega), hop, hth, hagg, hwin]
    exact ⟨rfl, rfl⟩

/-- Witness for C1: a 3-token invocation fails with the usage error. -/
theorem claim_C1_witness :
    (ConditionAction_call ⟨none, none⟩ ["a".toList, "b".toList, "c".toList]).2 =
      some CondError.usage :=
  claim_C1.1 ⟨none, none⟩ ["a".toList, "b".toList, "c".toList] (by decide)

/-- Claim C10: when the invoking namespace's description is unset, the
threshold condition parser assigns it the space-join of the original
(pre-split) tokens before validating anything, so the assignment survives a
usage-error failure — the failure is not atomic with respect to the
namespace. -/
theorem claim_C10 : ∀ (ns : CondNamespace) (values : List Str),
    ns.description = none →
    (ConditionAction_call ns values).1.description = some (joinSpaces values) ∧
    ((resplit values).length < 5 →
      (ConditionAction_call ns values).2 = some CondError.usage) := by
  intro ns values hdesc
  constructor
  · unfold ConditionAction_call
    rw [hdesc]
    dsimp only
    repeat' split
    all_goals rfl
  · intro hlen
    unfold ConditionAction_call
    rw [if_pos hlen]

/-- Witness for C10: the description is set even though the 3-token
invocation fails with the usage error. -/
theorem claim_C10_witness :
    (ConditionAction_call ⟨none, none⟩ ["a".toList, "b".toList, "c".toList]).1.description =
      some ("a b c".toList) ∧
    (ConditionAction_call ⟨none, none⟩ ["a".toList, "b".toList, "c".toList]).2 =
      some CondError.usage := by
  have h := claim_C10 ⟨none, none⟩ ["a".toList, "b".toList, "c".toList] rfl
  exact ⟨h.1, h.2 (by decide)⟩

/-- Claim C4: in the autoscale metric trigger parser, every operator or
aggregation lookup miss and every insufficient token count surfaces as the
one combined usage error: the `IndexError`/`KeyError` kinds arising inside
the parse are coalesced into the single `CLIError` usage message, and no
other error kind is surfaced for those inputs. -/
theorem claim_C4 :
    (∀ values : List Str, (resplit values).length < 4 →
      AutoscaleConditionAction_call values = .error ACondError.usage)
    ∧ (∀ (values : List Str) (t : Str),
        pyNegGet (resplit values) 4 = some t →
        lookupStr get_autoscale_operator_map t = none →
        AutoscaleConditionAction_call values = .error ACondError.usage)
    ∧ (∀ (values : List Str) (t u a : Str) (op : AOperator) (n : Int),
        pyNegGet (resplit values) 4 = some t →
        lookupStr get_autoscale_operator_map t = some op →
        pyNegGet (resplit values) 3 = some u →
        parsePyInt u = some n →
        pyNegGet (resplit values) 2 = some a →
        lookupStr get_autoscale_aggregation_map (lowerStr a) = none →
        AutoscaleConditionAction_call values = .error ACondError.usage)
    ∧ (∀ (values : List Str) (e : PyExc),
        autoscaleCondInner (resplit values) = .error e →
        (e = PyExc.indexError ∨ e = PyExc.keyError) →
        AutoscaleConditionAction_call values = .error ACondError.usage) := by
  refine ⟨?_, ?_, ?_, ?_⟩
  · intro values hlen
    have hidx : pyNegGet (resplit values) 4 = none := by
      unfold pyNegGet
      rw [if_neg (by omega)]
    have hinner : autoscaleCondInner (resplit values) = .error PyExc.indexError := by
      unfold autoscaleCondInner
      dsimp only
      rw [hidx]
    unfold AutoscaleConditionAction_call
    dsimp only
    rw [hinner]
  · intro values t ht hlook
    have hinner : autoscaleCondInner (resplit values) = .error PyExc.keyError := by
      unfold autoscaleCondInner
      dsimp only
      rw [ht]
      dsimp only
      rw [hlook]
    unfold AutoscaleConditionAction_call
    dsimp only
    rw [hinner]
  · intro values t u a op n ht hop hu hn ha hagg
    have hinner : autoscaleCondInner (resplit values) = .error PyExc.keyError := by
      unfold autoscaleCondInner
      dsimp only
      rw [ht]
      dsimp only
      rw [hop]
      dsimp only
      rw [hu]
      dsimp only
      rw [hn]
      dsimp only
      rw [ha]
      dsimp only
      rw [hagg]
    unfold AutoscaleConditionAction_call
    dsimp only
    rw [hinner]
  · intro values e hinner hek
    unfold AutoscaleConditionAction_call
    dsimp only
    rw [hinner]
    rcases hek with rfl | rfl <;> rfl

/-- Witness for C4: an unknown operator token surfaces as the usage error. -/
theorem claim_C4_witness :
    AutoscaleConditionAction_call
      ["cpu".toList, "@".toList, "80".toList, "avg".toList, "5m".toList] =
      .error ACondError.usage :=
  claim_C4.2.1 ["cpu".toList, "@".toList, "80".toList, "avg".toList, "5m".toList]
    ("@".toList) (by decide) (by decide)

/-- Claim C5: the scale directive parser re-splits a single token, fails
with the usage error on any token count other than 2, and classifies the
magnitude: direction token `to` forces the exact-count kind regardless of
the second token's form; otherwise a trailing `%` selects the
percent-change kind with the `%` stripped from the stored value, and any
other second token selects the absolute-change kind with the value stored
unchanged. -/
theorem claim_C5 :
    (∀ values : List Str, (resplit values).length ≠ 2 →
      AutoscaleScaleAction_call values = .error ScaleError.usage)
    ∧ (∀ (values : List Str) (d a : Str), resplit values = [d, a] →
      (d = "to".toList →
        ∀ out, AutoscaleScaleAction_call values = .ok out →
          out.type = ScaleType.exact_count)
      ∧ (d ≠ "to".toList → a.getLast? = some '%' →
          ∀ out, AutoscaleScaleAction_call values = .ok out →
            out.type = ScaleType.percent_change_count ∧ out.value = a.dropLast)
      ∧ (d ≠ "to".toList → a.getLast? ≠ some '%' →
          ∀ out, AutoscaleScaleAction_call values = .ok out →
            out.type = ScaleType.change_count ∧ out.value = a)) := by
  constructor
  · intro values hlen
    unfold AutoscaleScaleAction_call
    split
    · rename_i d a heq
      exact absurd (by rw [heq]; rfl) hlen
    · rfl
  · intro values d a heq
    refine ⟨?_, ?_, ?_⟩
    · intro hd out hout
      unfold AutoscaleScaleAction_call at hout
      rw [heq] at hout
      dsimp only at hout
      rw [if_pos hd] at hout
      rcases hl : lookupStr get_autoscale_scale_direction_map d with _ | dir
      · rw [hl] at hout
        cases hout
      · rw [hl, Except.ok.injEq] at hout
        subst hout
        rfl
    · intro hd hpc out hout
      unfold AutoscaleScaleAction_call at hout
      rw [heq] at hout
      dsimp only at hout
      rw [if_neg hd, if_pos hpc] at hout
      rcases hl : lookupStr get_autoscale_scale_direction_map d with _ | dir
      · rw [hl] at hout
        cases hout
      · rw [hl, Except.ok.injEq] at hout
        subst hout
        exact ⟨rfl, rfl⟩
    · intro hd hpc out hout
      unfold AutoscaleScaleAction_call at hout
      rw [heq] at hout
      dsimp only at hout
      rw [if_neg hd, if_neg hpc] at hout
      rcases hl : lookupStr get_autoscale_scale_direction_map d with _ | dir
      · rw [hl] at hout
        cases hout
      · rw [hl, Except.ok.injEq] at hout
        subst hout
        exact ⟨rfl, rfl⟩

/-- Witness for C5: `["to","5"]` gives the exact-count kind and
`["out","10%"]` the percent-change kind with value `"10"`. -/
theorem claim_C5_witness :
    (AutoscaleScaleAction_call ["to".toList, "5".toList] =
      .error ScaleError.usage → False) ∧
    ScaleActionModel.type
      ⟨ScaleDirection.setTo, ScaleType.exact_count, none, "5".toList⟩ =
      ScaleType.exact_count ∧
    ScaleActionModel.type
      ⟨ScaleDirection.increase, ScaleType.percent_change_count, none, "10".toList⟩ =
      ScaleType.percent_change_count := by
  refine ⟨by decide, ?_, rfl⟩
  exact claim_C5.2 ["to".toList, "5".toList] ("to".toList) ("5".toList) (by decide)
    |>.1 rfl ⟨ScaleDirection.setTo, ScaleType.exact_count, none, "5".toList⟩ (by decide)

/-- The four formatting branches of `timezone_offset_type` produce the
explicit-sign, conditionally zero-padded rendering of the hour. -/
theorem timezone_format (hour : Int) (h1 : -12 ≤ hour) (h2 : hour ≤ 14) :
    (if 0 ≤ hour ∧ hour < 10 then '+' :: '0' :: natDigits hour.toNat
     else if 10 ≤ hour then '+' :: natDigits hour.toNat
     else if hour < 0 ∧ -10 < hour then '-' :: '0' :: natDigits (-hour).toNat
     else intToStr hour) =
    (if 0 ≤ hour then '+' else '-') ::
      (if hour.natAbs < 10 then '0' :: natDigits hour.natAbs
       else natDigits hour.natAbs) := by
  by_cases ha : 0 ≤ hour ∧ hour < 10
  · rw [if_pos ha, if_pos ha.1, if_pos (by omega)]
    have he : hour.toNat = hour.natAbs := by omega
    rw [he]
  · rw [if_neg ha]
    by_cases hb : 10 ≤ hour
    · rw [if_pos hb, if_pos (by omega), if_neg (by omega)]
      have he : hour.toNat = hour.natAbs := by omega
      rw [he]
    · rw [if_neg hb]
      by_cases hc : hour < 0 ∧ -10 < hour
      · rw [if_pos hc, if_neg (by omega), if_pos (by omega)]
        have he : (-hour).toNat = hour.natAbs := by omega
        rw [he]
      · unfold intToStr
        rw [if_neg hc, if_pos (by omega), if_neg (by omega), if_neg (by omega)]
        have he : (-hour).toNat = hour.natAbs := by omega
        rw [he]

/-- Claim C6: on inputs of the form `H` or `H:M`, the timezone offset parser
fails with the out-of-range error exactly when the hour lies outside
`[-12, 14]`, and otherwise emits an explicit sign, a zero-padded two-digit
hour when its magnitude is below 10 (unpadded otherwise), reattaching the
minute part with `:` when one is given; in particular `"5"` yields `"+05"`,
`"-3"` yields `"-03"`, and `"15"` and `"-13"` fail out-of-range. -/
theorem claim_C6 : ∀ (hs m : Str) (hour : Int),
    parsePyInt hs = some hour → hasChar ':' hs = false →
    hasChar ':' m = false → m ≠ [] →
    (((14 < hour ∨ hour < -12) →
      timezone_offset_type hs = .error TZError.offsetOutOfRange ∧
      timezone_offset_type (hs ++ ':' :: m) = .error TZError.offsetOutOfRange)
    ∧ (-12 ≤ hour → hour ≤ 14 →
      timezone_offset_type hs =
        .ok ((if 0 ≤ hour then '+' else '-') ::
          (if hour.natAbs < 10 then '0' :: natDigits hour.natAbs
           else natDigits hour.natAbs)) ∧
      timezone_offset_type (hs ++ ':' :: m) =
        .ok (((if 0 ≤ hour then '+' else '-') ::
          (if hour.natAbs < 10 then '0' :: natDigits hour.natAbs
           else natDigits hour.natAbs)) ++ ':' :: m)))
    ∧ timezone_offset_type ("5".toList) = .ok ("+05".toList)
    ∧ timezone_offset_type ("-3".toList) = .ok ("-03".toList)
    ∧ timezone_offset_type ("15".toList) = .error TZError.offsetOutOfRange
    ∧ timezone_offset_type ("-13".toList) = .error TZError.offsetOutOfRange := by
  intro hs m hour hparse hch hcm hm
  have hsplit1 : pySplit ':' hs = [hs] := pySplit_no_sep hch
  have hsplit2 : pySplit ':' (hs ++ ':' :: m) = [hs, m] := by
    rw [pySplit_once m hch, pySplit_no_sep hcm]
  refine ⟨⟨?_, ?_⟩, by decide, by decide, by decide, by decide⟩
  · intro hrange
    constructor
    · unfold timezone_offset_type
      rw [hsplit1]
      dsimp only
      rw [hparse]
      dsimp only
      rw [if_pos hrange]
    · unfold timezone_offset_type
      rw [hsplit2]
      dsimp only
      rw [hparse]
      dsimp only
      rw [if_pos hrange]
  · intro h1 h2
    constructor
    · unfold timezone_offset_type
      rw [hsplit1]
      dsimp only
      rw [hparse]
      dsimp only
      rw [if_neg (by omega), timezone_format hour h1 h2]
    · unfold timezone_offset_type
      rw [hsplit2]
      dsimp only
      rw [hparse]
      dsimp only
      rw [if_neg (by omega), timezone_format hour h1 h2, if_pos hm]

/-- Witness for C6 at the inputs `"5:30"`, `"5"` and `"15"`. -/
theorem claim_C6_witness :
    timezone_offset_type ("5:30".toList) = .ok ("+05:30".toList) ∧
    timezone_offset_type ("15:30".toList) = .error TZError.offsetOutOfRange := by
  have h := claim_C6 ("5".toList) ("30".toList) 5 (by decide) (by decide)
    (by decide) (by decide)
  have h2 := claim_C6 ("15".toList) ("30".toList) 15 (by decide) (by decide)
    (by decide) (by decide)
  exact ⟨(h.1.2 (by decide) (by decide)).2, (h2.1.1 (by decide)).2⟩

/-- Claim C7: in both add-action parsers, when the first token lower-cases
to `webhook`, token 1 is the URI and each remaining token is split on its
first `=` into a key/value pair of the properties mapping; a remaining token
with no `=` fails with the usage error, and a first token outside the
recognized tag set fails with the usage error.  In particular
`["webhook","http://x","k1=v1","k2=v2"]` yields properties
`{k1: v1, k2: v2}` and `["webhook","http://x","bad"]` fails. -/
theorem claim_C7 :
    (∀ (v0 uri : Str) (props : List Str) (ps : List (Str × Str)),
      lowerStr v0 = "webhook".toList →
      props.mapM splitFirstEq = some ps →
      AlertAddAction_get_action (v0 :: uri :: props) =
        .ok (RuleAction.webhook uri (pyDict ps)) ∧
      AutoscaleAddAction_get_action (v0 :: uri :: props) =
        .ok (AutoscaleNotification.webhook uri (pyDict ps)))
    ∧ (∀ (v0 uri : Str) (props : List Str),
        lowerStr v0 = "webhook".toList →
        props.mapM splitFirstEq = none →
        AlertAddAction_get_action (v0 :: uri :: props) = .error AddActionError.usage ∧
        AutoscaleAddAction_get_action (v0 :: uri :: props) = .error AddActionError.usage)
    ∧ (∀ (v0 : Str) (rest : List Str),
        lowerStr v0 ≠ "email".toList → lowerStr v0 ≠ "webhook".toList →
        AlertAddAction_get_action (v0 :: rest) = .error AddActionError.usage ∧
        AutoscaleAddAction_get_action (v0 :: rest) = .error AddActionError.usage)
    ∧ AlertAddAction_get_action
        ["webhook".toList, "http://x".toList, "k1=v1".toList, "k2=v2".toList] =
      .ok (RuleAction.webhook ("http://x".toList)
        [("k1".toList, "v1".toList), ("k2".toList, "v2".toList)])
    ∧ AlertAddAction_get_action
        ["webhook".toList, "http://x".toList, "bad".toList] =
      .error AddActionError.usage := by
  refine ⟨?_, ?_, ?_, by decide, by decide⟩
  · intro v0 uri props ps hv hps
    constructor
    · unfold AlertAddAction_get_action
      try dsimp only
      rw [hv, if_neg (by decide), if_pos rfl]
      try dsimp only
      rw [hps]
    · unfold AutoscaleAddAction_get_action
      try dsimp only
      rw [hv, if_neg (by decide), if_pos rfl]
      try dsimp only
      rw [hps]
  · intro v0 uri props hv hps
    constructor
    · unfold AlertAddAction_get_action
      try dsimp only
      rw [hv, if_neg (by decide), if_pos rfl]
      try dsimp only
      rw [hps]
    · unfold AutoscaleAddAction_get_action
      try dsimp only
      rw [hv, if_neg (by decide), if_pos rfl]
      try dsimp only
      rw [hps]
  · intro v0 rest hne hnw
    constructor
    · unfold AlertAddAction_get_action
      try dsimp only
      rw [if_neg hne, if_neg hnw]
    · unfold AutoscaleAddAction_get_action
      try dsimp only
      rw [if_neg hne, if_neg hnw]

/-- Witness for C7: a mixed-case `Webhook` tag with one `KEY=VALUE` pair. -/
theorem claim_C7_witness :
    AlertAddAction_get_action ["Webhook".toList, "u".toList, "a=b".toList] =
      .ok (RuleAction.webhook ("u".toList) [("a".toList, "b".toList)]) ∧
    AutoscaleAddAction_get_action ["Webhook".toList, "u".toList, "a=b".toList] =
      .ok (AutoscaleNotification.webhook ("u".toList) [("a".toList, "b".toList)]) :=
  claim_C7.1 ("Webhook".toList) ("u".toList) ["a=b".toList]
    [("a".toList, "b".toList)] (by decide) (by decide)

/-- Claim C9: starting from any accumulator, a sequence of successful
add-action invocations appends exactly one parsed element per invocation, in
invocation order, never removing, replacing or reordering the elements
already present. -/
theorem claim_C9 : ∀ (inputs : List (List Str)) (acc out : List RuleAction),
    foldAddActions acc inputs = .ok out →
    ∃ ts : List RuleAction,
      inputs.mapM AlertAddAction_get_action = .ok ts ∧
      out = acc ++ ts ∧ out.length = acc.length + inputs.length := by
  intro inputs
  induction inputs with
  | nil =>
    intro acc out h
    unfold foldAddActions at h
    rw [Except.ok.injEq] at h
    subst h
    exact ⟨[], rfl, by simp, by simp⟩
  | cons v rest ih =>
    intro acc out h
    unfold foldAddActions AlertAddAction_call at h
    rcases hg : AlertAddAction_get_action v with e | a
    · rw [hg] at h
      cases h
    · rw [hg] at h
      dsimp only at h
      obtain ⟨ts, hts, hout, hlen⟩ := ih (acc ++ [a]) out h
      refine ⟨a :: ts, ?_, ?_, ?_⟩
      · rw [List.mapM_cons, hg, hts]
        rfl
      · rw [hout, List.append_assoc]
        rfl
      · rw [hlen, List.length_append, List.length_cons, List.length_cons]
        simp only [List.length_nil]
        omega

/-- Witness for C9: two successful invocations yield a 2-element list in
invocation order. -/
theorem claim_C9_witness :
    ∃ ts : List RuleAction,
      [["email".toList], ["email".toList, "x".toList]].mapM
        AlertAddAction_get_action = .ok ts ∧
      ([RuleAction.email [], RuleAction.email ["x".toList]] : List RuleAction) =
        [] ++ ts ∧
      ([RuleAction.email [], RuleAction.email ["x".toList]] : List RuleAction).length =
        ([] : List RuleAction).length + 2 :=
  claim_C9 [["email".toList], ["email".toList, "x".toList]] []
    [RuleAction.email [], RuleAction.email ["x".toList]] (by decide)
